import Mathlib

/-!
Verification development for the TradeDataResampler repository
(src/sampler.py, class TDResampler).

The pandas dataframe is embedded shallowly:
* a cell is an `Option ℚ` (`none` models a missing value / NaN);
* a row is an association list from column name to cell;
* the time index is `ℤ` (an instant on a linear time axis, in minutes);
* the frame is a list of (timestamp, row) pairs.

Aggregation semantics follow pandas `Resampler.agg`: every aggregation
except `sum` skips missing cells and yields a missing value when no cell
is present; `sum` of an empty or all-missing bucket yields 0.
`dropna(how=any)` keeps a row exactly when every cell is present.
-/

/-- Aggregation functions accepted in the OHLC dict of `TDResampler.resample`. -/
inductive AggFn where
  | first
  | last
  | min
  | max
  | sum
  | mean
deriving DecidableEq, Repr

/-- A cell of the dataframe: `none` is a missing value (NaN). -/
abbrev Cell := Option ℚ

/-- A row: association list column name to cell. -/
abbrev Row := List (String × Cell)

/-- Cell of column `c` in row `r`; an absent column reads as missing. -/
def getCell (r : Row) (c : String) : Cell :=
  (r.lookup c).join

/-- Pandas aggregation over the list of cells of one column inside one
bucket.  All functions skip missing cells; on an empty or all-missing
input, `sum` yields `some 0` (pandas sums with `min_count = 0`) while
every other function yields a missing result. -/
def applyAgg : AggFn → List Cell → Cell
  | .first, vs => (vs.filterMap id).head?
  | .last,  vs => (vs.filterMap id).getLast?
  | .min,   vs => (vs.filterMap id).min?
  | .max,   vs => (vs.filterMap id).max?
  | .sum,   vs => some (vs.filterMap id).sum
  | .mean,  vs =>
      let p := vs.filterMap id
      if p.isEmpty then none else some (p.sum / p.length)

/-- Rows of the frame falling into bucket `b` under the bucket
assignment `bucketOf` (the pandas binning of the time axis). -/
def bucketRows (bucketOf : ℤ → ℤ) (rows : List (ℤ × Row)) (b : ℤ) : List Row :=
  (rows.filter (fun r => bucketOf r.1 == b)).map (·.2)

/-- Aggregated row of one bucket: one cell per entry of the OHLC dict. -/
def aggRow (spec : List (String × AggFn)) (rs : List Row) : Row :=
  spec.map (fun p => (p.1, applyAgg p.2 (rs.map (fun r => getCell r p.1))))

/-- dropna(how=any) keeps a row exactly when every cell is present. -/
def keepRow (r : Row) : Bool :=
  r.all (fun p => p.2.isSome)

/-- Embedding of line 140/142 of src/sampler.py:
`self.df.resample(...).agg(ohlc_dict).dropna(how=any)`.
`buckets` is the contiguous list of bins pandas generates between the
first and the last index entry; `bucketOf` assigns each timestamp its
bin. -/
def resampleAgg (spec : List (String × AggFn)) (bucketOf : ℤ → ℤ)
    (buckets : List ℤ) (rows : List (ℤ × Row)) : List (ℤ × Row) :=
  (buckets.map (fun b => (b, aggRow spec (bucketRows bucketOf rows b)))).filter
    (fun p => keepRow p.2)

/-! ## Interval token handling (resample, lines 139 to 142) -/

/-- Embedding of the interval dispatch in `TDResampler.resample`: the
exact token W is replaced by W-FRI, every other token is passed to
pandas unchanged. -/
def effectiveInterval (interval : String) : String :=
  if interval == "W" then "W-FRI" else interval

/-- Pandas weekday anchor suffixes of weekly offset aliases. -/
def weekdayTokens : List String :=
  ["MON", "TUE", "WED", "THU", "FRI", "SAT", "SUN"]

/-- A pandas offset alias denoting weekly buckets: the bare token W or
W- followed by a weekday anchor. -/
def denotesWeekly (s : String) : Bool :=
  s == "W" || weekdayTokens.any (fun d => s == "W-" ++ d)

/-- Anchor weekday of a weekly pandas offset alias; the bare token W
defaults to a Sunday anchor. -/
def weeklyAnchor (s : String) : Option String :=
  if s == "W" then some "SUN"
  else weekdayTokens.find? (fun d => s == "W-" ++ d)

/-! ## Timezone conversion (convert_tz, lines 90 to 103)

Timezones are modelled as a table of known zone names with a fixed
UTC offset in minutes; an unknown name raises UnknownTimeZoneError in
pytz.  The dataframe index together with the tz attribute of the
TDResampler object is the state touched by convert_tz. -/

/-- State touched by `TDResampler.convert_tz`: the naive wall-clock
index of the dataframe and the recorded timezone tag (line 56 puts it
at `none` initially). -/
structure TzState where
  index : List ℤ
  tz : Option String
deriving DecidableEq, Repr

/-- Embedding of `TDResampler.convert_tz`.  Evaluation order of line 98:
`pytz.timezone(from_tz)` (raises on an unknown name), then
`tz_localize` (raises on an already localized index), then
`pytz.timezone(to_tz)`, then `tz_convert`; both except clauses only log
and leave the state untouched, and the index assignment happens only
when the whole right hand side succeeded. -/
def convertTz (zones : List (String × ℤ)) (s : TzState)
    (fromTz toTz : String) : TzState :=
  match zones.lookup fromTz with
  | none => s
  | some offF =>
    if s.tz.isSome then s
    else
      match zones.lookup toTz with
      | none => s
      | some offT =>
        { index := s.index.map (fun t => t - offF + offT), tz := some toTz }

/-! ## Cutoff filters (apply_cutoff, lines 68 to 88)

The sentinel value -1 of the python signature is modelled by `none`;
a supplied bound is `some`.  Times of day are minutes in a 1440 minute
day; the date bounds are instants on the same axis as the index. -/

/-- Time of day component of a timestamp (minutes past midnight). -/
def todOf (t : ℤ) : ℤ := t % 1440

/-- Pandas `between_time` with the default inclusive ends: an ordinary
inclusive interval when start ≤ end, and the wrapped-past-midnight
selection when start is later than end. -/
def betweenTime (s e t : ℤ) : Bool :=
  if s ≤ e then decide (s ≤ t) && decide (t ≤ e)
  else decide (s ≤ t) || decide (t ≤ e)

/-- Embedding of `TDResampler.apply_cutoff`: the time filter runs only
when both time bounds are supplied (line 78), then the start date
filter `index > start_date` (line 84), then the end date filter
`index < end_date` (line 88). -/
def applyCutoff (startTime endTime startDate endDate : Option ℤ)
    (rows : List (ℤ × Row)) : List (ℤ × Row) :=
  let r1 :=
    match startTime, endTime with
    | some s, some e => rows.filter (fun r => betweenTime s e (todOf r.1))
    | _, _ => rows
  let r2 :=
    match startDate with
    | some d => r1.filter (fun r => decide (d < r.1))
    | none => r1
  match endDate with
  | some d => r2.filter (fun r => decide (r.1 < d))
  | none => r2

/-! ## Precision rounding (apply_precision, lines 105 to 112) -/

/-- Round half to even to an integer, the rounding of numpy and hence
of `DataFrame.round`. -/
def rhe (q : ℚ) : ℤ :=
  if q - ⌊q⌋ < 1 / 2 then ⌊q⌋
  else if 1 / 2 < q - ⌊q⌋ then ⌊q⌋ + 1
  else if ⌊q⌋ % 2 = 0 then ⌊q⌋ else ⌊q⌋ + 1

/-- Round a rational to `p` decimal places, half to even. -/
def roundTo (p : ℤ) (x : ℚ) : ℚ :=
  (rhe (x * 10 ^ p) : ℚ) / 10 ^ p

/-- Embedding of `TDResampler.apply_precision`: every cell of every
column is rounded to `p` decimal places; missing cells stay missing and
the index is untouched. -/
def applyPrecision (p : ℤ) (rows : List (ℤ × Row)) : List (ℤ × Row) :=
  rows.map (fun r => (r.1, r.2.map (fun c => (c.1, c.2.map (roundTo p)))))

/-! ## Column discarding and export (write_csv, lines 145 to 164)

The python loop of lines 157 to 160 removes elements from the very
list it iterates over.  Python iterates a list through an internal
position that advances by one each step regardless of removals, and
`list.remove` deletes the first occurrence of the value; removing the
element at the current position therefore shifts its successor onto
the current position, and the successor is never examined.  The loop
is embedded with that exact stepping, using a structural fuel equal to
the initial length of the list, which the loop can never exhaust since
the position grows by one each step while the list only shrinks. -/

/-- One python for-loop over a mutating list: examine position `i`, and
when the element there is not an OHLC dict key remove its first
occurrence; either way the position then advances by one. -/
def discardLoopF (keys : List String) : ℕ → List String → ℕ → List String
  | 0, cols, _ => cols
  | fuel + 1, cols, i =>
    if h : i < cols.length then
      if cols.get ⟨i, h⟩ ∈ keys then discardLoopF keys fuel cols (i + 1)
      else discardLoopF keys fuel (cols.erase (cols.get ⟨i, h⟩)) (i + 1)
    else cols

/-- The loop of lines 157 to 160, started at position 0. -/
def discardLoop (keys cols : List String) : List String :=
  discardLoopF keys cols.length cols 0

/-- Final content of the caller-supplied columns list after
`write_csv`: lines 152 to 154 first remove the timestamp-composing
names (iterating over `datetime_col`, which is not mutated), then the
skip-on-remove loop of lines 157 to 160 discards names that are not
OHLC dict keys. -/
def writeCsvCols (dtCols keys cols : List String) : List String :=
  discardLoop keys (dtCols.foldl (fun acc v => acc.erase v) cols)

/-- Python errors that the export path can raise. -/
inductive PyErr where
  | attributeError
  | keyError
deriving DecidableEq, Repr

/-- State of a TDResampler object as far as resample and write_csv
touch it: the dataframe (columns plus rows), the timestamp-composing
column names, the stored OHLC dict (`None` until resample runs,
line 54), and the output header flag. -/
structure TDState where
  frameCols : List String
  frameRows : List (ℤ × Row)
  datetimeCol : List String
  ohlcDict : Option (List (String × AggFn))
  outputHeader : Bool
deriving Repr

/-- Embedding of `TDResampler.resample` as a state transformer: it
stores the OHLC dict (line 137) and replaces the dataframe by the
aggregated one, whose columns are the OHLC dict keys. -/
def resampleTD (s : TDState) (spec : List (String × AggFn))
    (bucketOf : ℤ → ℤ) (buckets : List ℤ) : TDState :=
  { s with
    ohlcDict := some spec
    frameCols := spec.map Prod.fst
    frameRows := resampleAgg spec bucketOf buckets s.frameRows }

/-- Projection `self.df[columns]` keeps the requested columns. -/
def projectRows (cols : List String) (rows : List (ℤ × Row)) :
    List (ℤ × Row) :=
  rows.map (fun r => (r.1, cols.map (fun c => (c, getCell r.2 c))))

/-- Embedding of `TDResampler.write_csv`.  Lines 152 to 154 drop the
timestamp-composing names from the columns list; line 156 dereferences
the stored OHLC dict, raising AttributeError when it is still `None`;
lines 157 to 160 run the skip-on-remove discarding loop; line 161
selects the surviving columns from the dataframe, raising KeyError if
one of them is not a dataframe column.  On success the result carries
the new state and the final content of the caller's columns list. -/
def writeCsvTD (s : TDState) (columns : List String) :
    Except PyErr (TDState × List String) :=
  let cols1 := s.datetimeCol.foldl (fun acc v => acc.erase v) columns
  match s.ohlcDict with
  | none => .error .attributeError
  | some d =>
    let keys := d.map Prod.fst
    let cols2 := discardLoop keys cols1
    if cols2.all (fun c => s.frameCols.contains c) then
      .ok ({ s with frameCols := cols2,
                    frameRows := projectRows cols2 s.frameRows }, cols2)
    else .error .keyError

/-! ## Claim C2: weekly anchor override -/

/-- C2 counterexample: the token W-MON denotes weekly buckets, but the
interval dispatch of lines 139 to 142 passes it through unchanged, so
the buckets are anchored on Monday, not Friday. -/
theorem weekly_anchor_not_overridden_for_wmon :
    denotesWeekly "W-MON" = true
    ∧ effectiveInterval "W-MON" = "W-MON"
    ∧ weeklyAnchor (effectiveInterval "W-MON") = some "MON"
    ∧ weeklyAnchor (effectiveInterval "W-MON") ≠ some "FRI" := by
  refine ⟨rfl, rfl, rfl, ?_⟩
  decide

/-- C2 amended: only the exact interval token W is rewritten to the
Friday anchored weekly alias W-FRI (overriding the Sunday default of
the bare token); every other token, weekly anchored tokens included,
is passed to pandas as given. -/
theorem weekly_anchor_amended :
    effectiveInterval "W" = "W-FRI"
    ∧ weeklyAnchor (effectiveInterval "W") = some "FRI"
    ∧ ∀ i : String, i ≠ "W" → effectiveInterval i = i := by
  refine ⟨rfl, rfl, ?_⟩
  intro i hi
  simp [effectiveInterval, hi]

/-- C2 witness: a concrete non weekly token is passed through. -/
theorem weekly_anchor_amended_witness :
    ("D" : String) ≠ "W" ∧ effectiveInterval "D" = "D" :=
  ⟨by decide, weekly_anchor_amended.2.2 "D" (by decide)⟩

/-! ## Claims C4 and C5: timezone conversion -/

/-- C4 counterexample: on a table already localized to US/Central,
convert_tz to US/Eastern does not re-express the timestamps in the
target zone; tz_localize raises on the aware index, the bare except
clause of line 102 swallows the error, and both the index and the
timezone tag keep their old values. -/
theorem convert_tz_localized_not_converted :
    (convertTz [("US/Central", -360), ("US/Eastern", -300)]
        ⟨[0], some "US/Central"⟩ "US/Central" "US/Eastern").tz ≠ some "US/Eastern"
    ∧ (convertTz [("US/Central", -360), ("US/Eastern", -300)]
        ⟨[0], some "US/Central"⟩ "US/Central" "US/Eastern").index = [0]
    ∧ (convertTz [("US/Central", -360), ("US/Eastern", -300)]
        ⟨[0], none⟩ "US/Central" "US/Eastern").index = [60] := by
  refine ⟨?_, rfl, rfl⟩
  decide

/-- C4 amended: on an already localized table convert_tz is a no-op:
line 98 attempts tz_localize unconditionally, which fails on an aware
index, and the caught failure leaves timestamps and timezone tag
unmodified; only a naive table is actually converted. -/
theorem convert_tz_localized_unchanged (zones : List (String × ℤ))
    (s : TzState) (fromTz toTz : String) (h : s.tz.isSome = true) :
    convertTz zones s fromTz toTz = s := by
  unfold convertTz
  cases hf : zones.lookup fromTz with
  | none => rfl
  | some offF => simp [h]

/-- C4 witness: a concrete localized table is left unchanged. -/
theorem convert_tz_localized_unchanged_witness :
    (⟨[0], some "X"⟩ : TzState).tz.isSome = true
    ∧ convertTz [("X", 0), ("Y", 60)] ⟨[0], some "X"⟩ "X" "Y"
        = (⟨[0], some "X"⟩ : TzState) :=
  ⟨rfl, convert_tz_localized_unchanged [("X", 0), ("Y", 60)] ⟨[0], some "X"⟩ "X" "Y" rfl⟩

/-- C5: every failure of convert_tz is non-fatal and atomic: an unknown
source zone, an unknown target zone, or a localization failure on an
already aware index leaves the index and the timezone tag completely
unmodified. -/
theorem convert_tz_error_atomic (zones : List (String × ℤ)) (s : TzState)
    (fromTz toTz : String)
    (h : zones.lookup fromTz = none ∨ zones.lookup toTz = none
          ∨ s.tz.isSome = true) :
    convertTz zones s fromTz toTz = s := by
  unfold convertTz
  rcases h with h | h | h
  · simp [h]
  · cases hf : zones.lookup fromTz with
    | none => rfl
    | some offF =>
      by_cases hs : s.tz.isSome
      · simp [hs]
      · simp [hs, h]
  · cases hf : zones.lookup fromTz with
    | none => rfl
    | some offF => simp [h]

/-- C5 witness: a concrete unknown source zone leaves the table as is. -/
theorem convert_tz_error_atomic_witness :
    (([("A", (0 : ℤ))] : List (String × ℤ)).lookup "B" = none
      ∨ ([("A", (0 : ℤ))] : List (String × ℤ)).lookup "A" = none
      ∨ (⟨[5], none⟩ : TzState).tz.isSome = true)
    ∧ convertTz [("A", 0)] ⟨[5], none⟩ "B" "A" = (⟨[5], none⟩ : TzState) :=
  ⟨Or.inl (by decide), convert_tz_error_atomic [("A", 0)] ⟨[5], none⟩ "B" "A"
    (Or.inl (by decide))⟩

/-! ## Claim C6: strictly exclusive date cutoffs -/

/-- C6: with both date bounds supplied (and no time bounds), the
filtered table holds exactly the rows with timestamp strictly after
start_date and strictly before end_date; a row exactly at either bound
is excluded. -/
theorem apply_cutoff_dates_strict (rows : List (ℤ × Row)) (sd ed : ℤ)
    (r : ℤ × Row) :
    r ∈ applyCutoff none none (some sd) (some ed) rows ↔
      r ∈ rows ∧ sd < r.1 ∧ r.1 < ed := by
  simp only [applyCutoff, List.mem_filter, decide_eq_true_eq]
  tauto

/-! ## Claim C7: time-of-day cutoff -/

/-- C7 counterexample: with start_time 23:00 and end_time 01:00 a row
at midnight is kept by between_time (the pandas filter wraps past
midnight when start is later than end), although its time of day does
not lie in the interval from start_time to end_time. -/
theorem between_time_wraps_midnight :
    applyCutoff (some 1380) (some 60) none none [((0 : ℤ), ([] : Row))]
      = [((0 : ℤ), ([] : Row))]
    ∧ ¬((1380 : ℤ) ≤ todOf 0 ∧ todOf 0 ≤ 60) := by
  refine ⟨rfl, ?_⟩
  decide

/-- C7 amended: when both time bounds are supplied and start ≤ end the
filter keeps exactly the rows whose time of day lies in the closed
interval between them; when start is later than end it keeps the rows
at or after start or at or before end (wrap past midnight), both ends
inclusive; when only one bound is supplied no time filtering happens. -/
theorem apply_cutoff_time_amended (rows : List (ℤ × Row)) (s e : ℤ)
    (r : ℤ × Row) :
    (r ∈ applyCutoff (some s) (some e) none none rows ↔
      r ∈ rows ∧ (if s ≤ e then s ≤ todOf r.1 ∧ todOf r.1 ≤ e
                  else s ≤ todOf r.1 ∨ todOf r.1 ≤ e))
    ∧ applyCutoff (some s) none none none rows = rows
    ∧ applyCutoff none (some e) none none rows = rows := by
  refine ⟨?_, rfl, rfl⟩
  by_cases hse : s ≤ e
  · simp [applyCutoff, List.mem_filter, betweenTime, hse]
  · simp [applyCutoff, List.mem_filter, betweenTime, hse]

/-! ## Claim C8: idempotence of precision rounding -/

/-- Half-to-even rounding of an integer is that integer. -/
theorem rhe_intCast (k : ℤ) : rhe (k : ℚ) = k := by
  unfold rhe
  norm_num [Int.floor_intCast]

/-- Rounding to `p` decimal places twice equals rounding once. -/
theorem roundTo_idem (p : ℤ) (x : ℚ) : roundTo p (roundTo p x) = roundTo p x := by
  unfold roundTo
  have hp : (10 : ℚ) ^ p ≠ 0 := zpow_ne_zero p (by norm_num)
  rw [div_mul_cancel₀ _ hp, rhe_intCast]

/-- C8: apply_precision is idempotent: rounding an already rounded
table to the same number of decimal places changes nothing. -/
theorem apply_precision_idempotent (p : ℤ) (rows : List (ℤ × Row)) :
    applyPrecision p (applyPrecision p rows) = applyPrecision p rows := by
  have hcell : ∀ c : Cell, (c.map (roundTo p)).map (roundTo p) = c.map (roundTo p) := by
    intro c
    cases c with
    | none => rfl
    | some x => simp [roundTo_idem]
  have hrow : ∀ r : Row,
      ((r.map fun c => (c.1, c.2.map (roundTo p))).map
        fun c => (c.1, c.2.map (roundTo p)))
        = r.map fun c => (c.1, c.2.map (roundTo p)) := by
    intro r
    induction r with
    | nil => rfl
    | cons a t ih => simp only [List.map_cons, ih, hcell]
  unfold applyPrecision
  induction rows with
  | nil => rfl
  | cons a t ih => simp only [List.map_cons, ih, hrow]

/-! ## Claim C1: bucket presence in the resampled output -/

/-- A bucket label appears in the resampled output exactly when it is
one of the generated bins and its aggregated row has no missing cell. -/
theorem mem_map_fst_resampleAgg (spec : List (String × AggFn))
    (bucketOf : ℤ → ℤ) (buckets : List ℤ) (rows : List (ℤ × Row)) (b : ℤ) :
    b ∈ (resampleAgg spec bucketOf buckets rows).map Prod.fst ↔
      b ∈ buckets ∧ keepRow (aggRow spec (bucketRows bucketOf rows b)) = true := by
  simp only [resampleAgg, List.mem_map, List.mem_filter]
  constructor
  · rintro ⟨x, ⟨⟨a, ha, rfl⟩, hk⟩, rfl⟩
    exact ⟨ha, hk⟩
  · rintro ⟨hb, hk⟩
    exact ⟨(b, aggRow spec (bucketRows bucketOf rows b)), ⟨⟨b, hb, rfl⟩, hk⟩, rfl⟩

/-- The aggregated row of a bucket survives dropna exactly when every
OHLC dict entry aggregates to a present value. -/
theorem keepRow_aggRow (spec : List (String × AggFn)) (rs : List Row) :
    keepRow (aggRow spec rs) = true ↔
      ∀ p ∈ spec, (applyAgg p.2 (rs.map (fun r => getCell r p.1))).isSome = true := by
  induction spec with
  | nil => simp [keepRow, aggRow]
  | cons q t ih =>
    unfold keepRow aggRow at *
    simp only [List.map_cons, List.all_cons, Bool.and_eq_true, List.mem_cons] at *
    constructor
    · rintro ⟨h1, h2⟩ p hp
      rcases hp with rfl | hp
      · exact h1
      · exact ih.mp h2 p hp
    · intro h
      exact ⟨h q (Or.inl rfl), ih.mpr fun p hp => h p (Or.inr hp)⟩

/-- Every aggregation except sum is missing on an empty bucket. -/
theorem applyAgg_nil_eq_none {f : AggFn} (h : f ≠ AggFn.sum) :
    applyAgg f [] = none := by
  cases f with
  | sum => exact absurd rfl h
  | first => rfl
  | last => rfl
  | min => rfl
  | max => rfl
  | mean => rfl

/-- C1 counterexample: with source rows only in buckets 0 and 2 and the
aggregation spec mapping column a to sum, the empty middle bucket 1
still produces an output row (its sum aggregates to 0, not to a missing
value, so dropna keeps it), although it contains no source row. -/
theorem resample_empty_bucket_sum_kept :
    (1 : ℤ) ∈ (resampleAgg [("a", AggFn.sum)] id [0, 1, 2]
        [(0, [("a", some 1)]), (2, [("a", some 1)])]).map Prod.fst
    ∧ bucketRows id [(0, [("a", some 1)]), (2, [("a", some 1)])] 1 = [] := by
  refine ⟨?_, rfl⟩
  decide

/-- C1 amended: a generated bucket produces an output row iff every
column of the aggregation spec yields a non-missing aggregate for it
(a single missing aggregate still excludes the whole row); provided
the spec is non-empty and uses no sum aggregation, this is equivalent
to the original claim, the bucket then also having to contain at least
one source row. -/
theorem resample_bucket_presence_amended
    (spec : List (String × AggFn)) (bucketOf : ℤ → ℤ) (buckets : List ℤ)
    (rows : List (ℤ × Row)) (b : ℤ)
    (hb : b ∈ buckets) (hne : spec ≠ [])
    (hns : ∀ p ∈ spec, p.2 ≠ AggFn.sum) :
    b ∈ (resampleAgg spec bucketOf buckets rows).map Prod.fst ↔
      (bucketRows bucketOf rows b ≠ [] ∧
        ∀ p ∈ spec, (applyAgg p.2 ((bucketRows bucketOf rows b).map
          (fun r => getCell r p.1))).isSome = true) := by
  rw [mem_map_fst_resampleAgg, keepRow_aggRow]
  constructor
  · rintro ⟨-, hall⟩
    refine ⟨?_, hall⟩
    intro hnil
    obtain ⟨p, hp⟩ := List.exists_mem_of_ne_nil spec hne
    have hsome := hall p hp
    rw [hnil] at hsome
    rw [List.map_nil, applyAgg_nil_eq_none (hns p hp)] at hsome
    exact Bool.noConfusion hsome
  · rintro ⟨-, hall⟩
    exact ⟨hb, hall⟩

/-- C1 witness: one bucket holding one row with a present Open cell
aggregated by first; both sides of the equivalence hold. -/
theorem resample_bucket_presence_amended_witness :
    ((0 : ℤ) ∈ [(0 : ℤ)]
      ∧ ([("Open", AggFn.first)] : List (String × AggFn)) ≠ []
      ∧ (∀ p ∈ ([("Open", AggFn.first)] : List (String × AggFn)),
          p.2 ≠ AggFn.sum))
    ∧ ((0 : ℤ) ∈ (resampleAgg [("Open", AggFn.first)] id [0]
          [((0 : ℤ), [("Open", some (5 : ℚ))])]).map Prod.fst ↔
        (bucketRows id [((0 : ℤ), [("Open", some (5 : ℚ))])] 0 ≠ [] ∧
          ∀ p ∈ ([("Open", AggFn.first)] : List (String × AggFn)),
            (applyAgg p.2 ((bucketRows id [((0 : ℤ), [("Open", some (5 : ℚ))])] 0).map
              (fun r => getCell r p.1))).isSome = true)) :=
  ⟨⟨by decide, by decide, by decide⟩,
    resample_bucket_presence_amended _ id _ _ 0 (by decide) (by decide) (by decide)⟩

/-! ## Claims C3, C9 and C10: the export path -/

/-- The OHLC dict of the module level usage example (lines 184 to 191). -/
def stdOhlcSpec : List (String × AggFn) :=
  [("Open", .first), ("High", .max), ("Low", .min),
   ("Close", .last), ("Up", .last), ("Down", .last)]

/-- A TDResampler state after resample ran with the standard OHLC
dict: the dict is stored and the dataframe columns are its keys. -/
def sAfterResample : TDState :=
  { frameCols := stdOhlcSpec.map Prod.fst
    frameRows := []
    datetimeCol := ["Date", "Time"]
    ohlcDict := some stdOhlcSpec
    outputHeader := true }

/-- A freshly constructed TDResampler state on which resample has not
run: the stored OHLC dict is still the `None` of line 54. -/
def sNoResample : TDState :=
  { frameCols := ["Open"], frameRows := [], datetimeCol := ["Date", "Time"]
    ohlcDict := none, outputHeader := true }

/-- C3: the claim that every requested column absent from the OHLC dict
keys is dropped with a warning and the export proceeds fails on the
code: the loop of lines 157 to 160 removes elements of the list it is
iterating over, so after Foo is removed the iterator skips Bar; Bar,
not an OHLC dict key, survives the filter, and selecting it from the
resampled dataframe at line 161 raises KeyError instead of exporting
the remaining valid columns. -/
theorem write_csv_skip_on_remove_keyerror :
    writeCsvCols ["Date", "Time"] (stdOhlcSpec.map Prod.fst)
        ["Foo", "Bar", "Open"] = ["Bar", "Open"]
    ∧ "Bar" ∉ stdOhlcSpec.map Prod.fst
    ∧ writeCsvTD sAfterResample ["Foo", "Bar", "Open"]
        = Except.error PyErr.keyError := by
  refine ⟨rfl, by decide, rfl⟩

/-- C9: resample records the OHLC dict; calling write_csv before any
resample dereferences the initial `None` and fails with
AttributeError; once a dict is recorded this failure branch is
unreachable. -/
theorem write_csv_requires_resample :
    (∀ (s : TDState) (spec : List (String × AggFn)) (bucketOf : ℤ → ℤ)
        (buckets : List ℤ),
        (resampleTD s spec bucketOf buckets).ohlcDict = some spec)
    ∧ (∀ (s : TDState) (cols : List String), s.ohlcDict = none →
        writeCsvTD s cols = Except.error PyErr.attributeError)
    ∧ (∀ (s : TDState) (cols : List String), s.ohlcDict.isSome = true →
        writeCsvTD s cols ≠ Except.error PyErr.attributeError) := by
  refine ⟨fun s spec f bs => rfl, fun s cols h => ?_, fun s cols h => ?_⟩
  · unfold writeCsvTD
    rw [h]
  · unfold writeCsvTD
    obtain ⟨d, hd⟩ := Option.isSome_iff_exists.mp h
    rw [hd]
    dsimp only
    split
    · intro hcon
      exact Except.noConfusion hcon
    · intro hcon
      rw [Except.error.injEq] at hcon
      exact PyErr.noConfusion hcon

/-- C9 witness: before resample the export fails with AttributeError;
after it, it does not. -/
theorem write_csv_requires_resample_witness :
    writeCsvTD sNoResample [] = Except.error PyErr.attributeError
    ∧ writeCsvTD sAfterResample [] ≠ Except.error PyErr.attributeError :=
  ⟨write_csv_requires_resample.2.1 sNoResample [] rfl,
    write_csv_requires_resample.2.2 sAfterResample [] rfl⟩

/-- The discarding loop only removes elements: its result is a sublist
of the list it started from. -/
theorem discardLoopF_sublist (keys : List String) :
    ∀ (fuel : ℕ) (cols : List String) (i : ℕ),
      (discardLoopF keys fuel cols i).Sublist cols := by
  intro fuel
  induction fuel with
  | zero => intro cols i; exact List.Sublist.refl _
  | succ n ih =>
    intro cols i
    simp only [discardLoopF]
    split
    · split
      · exact ih cols (i + 1)
      · exact (ih _ (i + 1)).trans (List.erase_sublist _ _)
    · exact List.Sublist.refl _

/-- The discarding loop never removes an OHLC dict key. -/
theorem mem_discardLoopF_of_mem_keys (keys : List String) (c : String)
    (hc : c ∈ keys) :
    ∀ (fuel : ℕ) (cols : List String) (i : ℕ),
      c ∈ cols → c ∈ discardLoopF keys fuel cols i := by
  intro fuel
  induction fuel with
  | zero => intro cols i h; exact h
  | succ n ih =>
    intro cols i h
    simp only [discardLoopF]
    split
    next hlt =>
      split
      next hv => exact ih cols (i + 1) h
      next hv =>
        refine ih _ (i + 1) ?_
        have hne : c ≠ cols.get ⟨i, hlt⟩ := fun he => hv (he ▸ hc)
        exact (List.mem_erase_of_ne hne).mpr h
    next => exact h

/-- The datetime removal loop of lines 152 to 154 keeps every name
that is not a timestamp-composing name. -/
theorem mem_foldl_erase (c : String) :
    ∀ (dt cols : List String), c ∈ cols → c ∉ dt →
      c ∈ dt.foldl (fun acc v => acc.erase v) cols := by
  intro dt
  induction dt with
  | nil => intro cols h _; exact h
  | cons d t ih =>
    intro cols h hnd
    simp only [List.foldl_cons]
    refine ih _ ?_ (fun hm => hnd (List.mem_cons_of_mem d hm))
    have hne : c ≠ d := fun he => hnd (he ▸ List.mem_cons_self d t)
    exact (List.mem_erase_of_ne hne).mpr h

/-- The datetime removal loop only removes elements. -/
theorem foldl_erase_sublist :
    ∀ (dt cols : List String),
      (dt.foldl (fun acc v => acc.erase v) cols).Sublist cols := by
  intro dt
  induction dt with
  | nil => intro cols; exact List.Sublist.refl _
  | cons d t ih => intro cols; exact (ih _).trans (List.erase_sublist _ _)

/-- C10 counterexample: Bar is neither a timestamp-composing name nor
an OHLC dict key, yet it is still in the caller's columns list after
the write_csv filtering (the removal of Foo shifted it under the
iterator); so not every invalid name is removed from the list. -/
theorem write_csv_columns_invalid_name_survives :
    "Bar" ∈ writeCsvCols ["Date", "Time"] (stdOhlcSpec.map Prod.fst)
        ["Foo", "Bar", "Open"]
    ∧ "Bar" ∉ stdOhlcSpec.map Prod.fst
    ∧ "Bar" ∉ (["Date", "Time"] : List String) := by
  refine ⟨by decide, by decide, by decide⟩

/-- C10 amended: write_csv mutates the caller's columns list in place,
only ever removing elements from it (the final content is a sublist of
the original, and with the default argument it persists as the shared
default of later calls); the removed names are only
timestamp-composing names and names outside the OHLC dict keys, every
key that is not a timestamp-composing name survives, but because the
loop removes while iterating an invalid name directly after a removed
one is skipped and survives, as Bar in the concrete run. -/
theorem write_csv_columns_mutation_amended :
    (∀ dt keys cols : List String, (writeCsvCols dt keys cols).Sublist cols)
    ∧ (∀ (dt keys cols : List String) (c : String),
        c ∈ cols → c ∉ dt → c ∈ keys → c ∈ writeCsvCols dt keys cols)
    ∧ writeCsvCols ["Date", "Time"] (stdOhlcSpec.map Prod.fst)
        ["Foo", "Bar", "Open"] = ["Bar", "Open"] := by
  refine ⟨?_, ?_, rfl⟩
  · intro dt keys cols
    exact (discardLoopF_sublist keys _ _ 0).trans (foldl_erase_sublist dt cols)
  · intro dt keys cols c h hnd hk
    exact mem_discardLoopF_of_mem_keys keys c hk _ _ 0 (mem_foldl_erase c dt cols h hnd)

/-- C10 witness: a valid requested column survives the filtering. -/
theorem write_csv_columns_mutation_amended_witness :
    ("Open" ∈ (["Open"] : List String)
      ∧ "Open" ∉ (["Date"] : List String)
      ∧ "Open" ∈ (["Open", "High"] : List String))
    ∧ "Open" ∈ writeCsvCols ["Date"] ["Open", "High"] ["Open"] :=
  ⟨⟨by decide, by decide, by decide⟩,
    write_csv_columns_mutation_amended.2.1 ["Date"] ["Open", "High"] ["Open"] "Open"
      (by decide) (by decide) (by decide)⟩
